import Mathlib

/-!
Shallow embedding of the Guntamatic Biostar device client
(`custom_components/guntamatic_biostar/__init__.py` and `const.py`).

Python values decoded from JSON (and the normalized sensor values) are
modelled by the inductive `PyValue`; Python `dict`s keyed by strings are
modelled as association lists with unique keys maintained by `dictInsert`
(insertion order preserved, assignment to an existing key overwrites in
place, exactly as a Python `dict`).  Network I/O is modelled by passing
each endpoint's response explicitly as a `FetchResult`: `exn` is a
transport-level exception, `resp st body` an HTTP response.  Text bodies
are modelled as already-decoded strings (the windows-1252 byte decoding
itself is not modelled).  Rationals stand in for Python floats; none of
the claims involve rounding, overflow, infinities or NaN.
-/

/-- Python values as decoded from JSON / produced by the parsers. -/
inductive PyValue where
  | none
  | bool (b : Bool)
  | int (n : Int)
  | float (q : ℚ)
  | str (s : String)
  | list (xs : List PyValue)
  | dict (fs : List (String × PyValue))

/-- Python string dictionaries as association lists. -/
abbrev PyDict (α : Type) := List (String × α)

/-- `d[k]` lookup on an association list (first match). Decoded JSON
objects and all dictionaries built by `dictInsert` have unique keys, so
first-match agrees with Python `dict` lookup. -/
def dictGet? {α : Type} : PyDict α → String → Option α
  | [], _ => Option.none
  | kv :: t, k => if kv.1 == k then some kv.2 else dictGet? t k

/-- Python `k in d` on a dictionary. -/
def hasKey {α : Type} : PyDict α → String → Bool
  | [], _ => false
  | kv :: t, k => kv.1 == k || hasKey t k

/-- Python `d[k] = v`: overwrite in place if the key exists, append
otherwise (preserving Python dict insertion-order semantics). -/
def dictInsert {α : Type} (d : PyDict α) (k : String) (v : α) : PyDict α :=
  if hasKey d k then d.map (fun kv => if kv.1 == k then (k, v) else kv)
  else d ++ [(k, v)]

/-- Field access `data.get?` on a decoded JSON value: key lookup on an
object, `none` otherwise.  (In Python a truthy non-dict status body would
raise on `"meta" in status_data`; such bodies are outside the modelled
domain and none of the claims touch them.) -/
def PyValue.get? : PyValue → String → Option PyValue
  | .dict fs, k => dictGet? fs k
  | _, _ => Option.none

/-- Python truthiness of a decoded value. -/
def pyTruthy : PyValue → Bool
  | .none => false
  | .bool b => b
  | .int n => n != 0
  | .float q => q != 0
  | .str s => s != ""
  | .list xs => !xs.isEmpty
  | .dict fs => !fs.isEmpty

/-- Python `len` on sized values (lists, strings, dicts). -/
def pyLen : PyValue → Nat
  | .list xs => xs.length
  | .str s => s.length
  | .dict fs => fs.length
  | _ => 0

/-- Python iteration over a value: lists yield elements, strings yield
one-character strings, dicts yield their keys.  (Iterating any other
value raises in Python; no claim depends on it.) -/
def pyIter : PyValue → List PyValue
  | .list xs => xs
  | .str s => s.data.map (fun c => .str (String.mk [c]))
  | .dict fs => fs.map (fun kv => .str kv.1)
  | _ => []

/-- Python `str()` on scalar values.  The decimal formatting of floats
and the `repr` of containers are elided (no claim evaluates them). -/
def pyStr : PyValue → String
  | .none => "None"
  | .bool true => "True"
  | .bool false => "False"
  | .int n => toString n
  | .float q => toString q
  | .str s => s
  | .list _ => "<list>"
  | .dict _ => "<dict>"

/-- Lowercasing of one character as Python `str.lower` does on the
Latin-1 range relevant to windows-1252 payloads: ASCII `A`-`Z` and the
accented uppercase block `À`-`Þ` (except `×`) shift down by 32. -/
def pyCharLower (c : Char) : Char :=
  if (65 ≤ c.toNat && c.toNat ≤ 90) ||
      (192 ≤ c.toNat && c.toNat ≤ 222 && c.toNat != 215) then
    Char.ofNat (c.toNat + 32)
  else c

/-- Python `str.lower`. -/
def pyLowerStr (s : String) : String :=
  String.mk (s.data.map pyCharLower)

/-- Whitespace characters removed by Python `str.strip`. -/
def pySpace (c : Char) : Bool :=
  c == ' ' || c == '\t' || c == '\n' || c == '\r' ||
    c == Char.ofNat 11 || c == Char.ofNat 12

/-- Python `str.strip()`. -/
def pyStrip (s : String) : String :=
  String.mk (((s.data.dropWhile pySpace).reverse.dropWhile pySpace).reverse)

/-- `str.split(sep)` for a one-character separator, with Python
semantics: `"".split(c) = [""]`, a trailing separator yields a trailing
empty field. -/
def splitOnChar (c : Char) : List Char → List (List Char)
  | [] => [[]]
  | x :: t =>
    let r := splitOnChar c t
    if x == c then [] :: r
    else
      match r with
      | h :: t2 => (x :: h) :: t2
      | [] => [[x]]

/-- String-level wrapper for `splitOnChar`. -/
def pySplit (s : String) (c : Char) : List String :=
  (splitOnChar c s.data).map String.mk

/-- Substring occurrence on character lists. -/
def subOf : List Char → List Char → Bool
  | [], n => n.isEmpty
  | h :: t, n => n.isPrefixOf (h :: t) || subOf t n

/-- Python `needle in hay` on strings. -/
def pySubstr (hay needle : String) : Bool :=
  subOf hay.data needle.data

/-- Numeric value of a digit run. -/
def digitsToNat (ds : List Char) : Nat :=
  ds.foldl (fun a c => a * 10 + (c.toNat - 48)) 0

/-- The exact rational `sign * 0.ip fd * 10 ^ exp` read off a parsed
decimal literal, built from integer arithmetic only. -/
def ratOfParts (sign : Int) (ip fd : List Char) (exp : Int) : ℚ :=
  let n : Int := sign * (digitsToNat (ip ++ fd) : Int)
  let shift : Int := exp - (fd.length : Int)
  if 0 ≤ shift then Rat.divInt (n * (10 : Int) ^ shift.toNat) 1
  else Rat.divInt n ((10 : Int) ^ (-shift).toNat)

/-- Python `float(str)` on ordinary decimal literals: optional
whitespace, optional sign, digits with optional fraction, optional
exponent.  (`inf`/`nan` spellings and digit-group underscores are not
modelled; no claim involves them.)  Returns `none` where Python raises
`ValueError`. -/
def pyFloat? (s : String) : Option ℚ :=
  let cs := (pyStrip s).data
  let sign : Int × List Char :=
    match cs with
    | '+' :: t => (1, t)
    | '-' :: t => (-1, t)
    | t => (1, t)
  let ip := sign.2.takeWhile Char.isDigit
  let rest1 := sign.2.dropWhile Char.isDigit
  let frac : List Char × List Char :=
    match rest1 with
    | '.' :: t => (t.takeWhile Char.isDigit, t.dropWhile Char.isDigit)
    | t => ([], t)
  if ip.isEmpty && frac.1.isEmpty then Option.none
  else
    match frac.2 with
    | [] => some (ratOfParts sign.1 ip frac.1 0)
    | 'e' :: t =>
      let es : Int × List Char :=
        match t with
        | '+' :: u => (1, u)
        | '-' :: u => (-1, u)
        | u => (1, u)
      let ed := es.2.takeWhile Char.isDigit
      if ed.isEmpty || !(es.2.dropWhile Char.isDigit).isEmpty then Option.none
      else some (ratOfParts sign.1 ip frac.1 (es.1 * (digitsToNat ed : Int)))
    | 'E' :: t =>
      let es : Int × List Char :=
        match t with
        | '+' :: u => (1, u)
        | '-' :: u => (-1, u)
        | u => (1, u)
      let ed := es.2.takeWhile Char.isDigit
      if ed.isEmpty || !(es.2.dropWhile Char.isDigit).isEmpty then Option.none
      else some (ratOfParts sign.1 ip frac.1 (es.1 * (digitsToNat ed : Int)))
    | _ => Option.none

/-- Python `int(float(..))`: truncation toward zero. -/
def pyTruncInt (q : ℚ) : Int :=
  q.num.tdiv (q.den : Int)

/-- A sensor entry `[value, unit]` as stored in the data dictionaries. -/
abbrev Entry := PyValue × Option String

/-- HTTP interaction outcome for one endpoint: transport exception or a
response with status code and body. -/
inductive FetchResult (β : Type) where
  | exn
  | resp (status : Nat) (body : β)

/-- `EXCLUDE_KEYWORDS` from `const.py` line 140. -/
def EXCLUDE_KEYWORDS : List String := ["réservé", "reserved", "reserviert"]

/-- Value coercion of `_async_get_legacy_data` (`__init__.py` lines
139-154), applied to the stripped raw value and the normalized unit. -/
def coerce_value (raw : String) (unit : Option String) : PyValue :=
  if raw = "AN" ∨ raw = "ON" ∨ raw = "MARCHE" then .bool true
  else if raw = "AUS" ∨ raw = "OFF" ∨ raw = "ARRÊT" then .bool false
  else if unit = some "°C" ∨ unit = some "%" then
    match pyFloat? raw with
    | some q => .float q
    | Option.none => .str raw
  else if unit = some "d" ∨ unit = some "h" then
    match pyFloat? raw with
    | some q => .int (pyTruncInt q)
    | Option.none => .str raw
  else .str raw

/-- Body of one legacy parsing iteration applied to the `;`-split
description fields: exactly-two fields proceed (`key, unit =
line.split(";")`), any other arity raises `ValueError` and is skipped
(`continue`). -/
def legacy_step_fields (data : PyDict Entry) (valLine : String) :
    List String → PyDict Entry
  | [key, unitRaw] =>
    if pyLowerStr key = "reserved" ∨ pyLowerStr key = "réservé" ∨
        pyLowerStr key = "reserviert" then data
    else
      let unit : Option String :=
        if pyStrip unitRaw = "" then Option.none else some (pyStrip unitRaw)
      let raw := pyStrip valLine
      dictInsert data key (coerce_value raw unit, unit)
  | _ => data

/-- One iteration of the legacy parsing loop (`__init__.py` lines
127-156): split the description line on `;` into exactly two fields
(else skip), drop reserved keys, normalize the unit, strip and coerce
the value, store `[value, unit]` under the key. -/
def legacy_step (data : PyDict Entry) (descLine valLine : String) : PyDict Entry :=
  legacy_step_fields data valLine (pySplit descLine ';')

/-- The legacy parsing loop over `range(min(len(desc), len(values)))`
(`__init__.py` line 126). -/
def legacy_parse_lines (dataDescription dataValues : List String) : PyDict Entry :=
  (List.range (min dataDescription.length dataValues.length)).foldl
    (fun data i => legacy_step data (dataDescription.getD i "") (dataValues.getD i ""))
    []

/-- `Biostar._async_get_legacy_data` (`__init__.py` lines 94-158): fetch
`/daqdesc.cgi` then `/daqdata.cgi`; any transport error or non-200
raises `UpdateFailed` (modelled as `Except.error` carrying the message);
on success split each body on newlines, drop the trailing artifact line,
and run the parsing loop when both line lists are non-empty. -/
def async_get_legacy_data (descResp dataResp : FetchResult String) :
    Except String (PyDict Entry) :=
  match descResp with
  | .exn => .error "Failed to fetch from legacy API"
  | .resp st body =>
    if st ≠ 200 then .error ("Legacy API /daqdesc.cgi returned " ++ toString st)
    else
      let dataDescription := (pySplit body '\n').dropLast
      match dataResp with
      | .exn => .error "Failed to fetch from legacy API"
      | .resp st2 body2 =>
        if st2 ≠ 200 then .error ("Legacy API /daqdata.cgi returned " ++ toString st2)
        else
          let dataValues := (pySplit body2 '\n').dropLast
          if !dataDescription.isEmpty && !dataValues.isEmpty then
            .ok (legacy_parse_lines dataDescription dataValues)
          else .ok []

/-- `Biostar._async_get_status_data` (`__init__.py` lines 75-92): a 200
response with a JSON-decodable body yields the decoded value, every
other outcome (non-200, undecodable body, transport error) yields
`None`.  The body is `Option PyValue`: `none` models a body on which
`resp.json()` raises. -/
def async_get_status_data : FetchResult (Option PyValue) → Option PyValue
  | .exn => Option.none
  | .resp st body => if st = 200 then body else Option.none

/-- `result[label] = [data[k], unit]` guarded by `if k in data`
(the pervasive pattern of `_parse_status_data`). -/
def addIf (d : PyValue) (k : String) (label : String) (unit : Option String)
    (r : PyDict Entry) : PyDict Entry :=
  match d.get? k with
  | some v => dictInsert r label (v, unit)
  | Option.none => r

/-- Heating-circuit iteration body of `_parse_status_data`
(`__init__.py` lines 249-256). -/
def heat_circ_step (r : PyDict Entry) (ic : Nat × PyValue) : PyDict Entry :=
  let lbl := "_Circuit " ++ pyStr ((ic.2.get? "name").getD (.int (ic.1 : Int)))
  let r := addIf ic.2 "day_temp" (lbl ++ " - Temp jour") (some "°C") r
  let r := addIf ic.2 "night_temp" (lbl ++ " - Temp nuit") (some "°C") r
  addIf ic.2 "mode" (lbl ++ " - Mode") Option.none r

/-- Water-circuit iteration body of `_parse_status_data`
(`__init__.py` lines 260-265). -/
def water_circ_step (r : PyDict Entry) (ic : Nat × PyValue) : PyDict Entry :=
  let lbl := "_ECS " ++ pyStr ((ic.2.get? "name").getD (.int (ic.1 : Int)))
  let r := addIf ic.2 "temp" (lbl ++ " - Temp") (some "°C") r
  addIf ic.2 "mode" (lbl ++ " - Mode") Option.none r

/-- Error iteration body of `_parse_status_data` (`__init__.py` lines
270-271). -/
def error_step (r : PyDict Entry) (ie : Nat × PyValue) : PyDict Entry :=
  dictInsert r ("_Erreur " ++ toString ie.1) (.str (pyStr ie.2), Option.none)

/-- Scalar section of `_parse_status_data` (`__init__.py` lines
209-233): fixed key-to-label mapping for the top-level fields. -/
def parse_status_scalars (d : PyValue) (r : PyDict Entry) : PyDict Entry :=
  let r := addIf d "temp" "_Température chaudière" (some "°C") r
  let r := addIf d "ext_temp" "_Température extérieure" (some "°C") r
  let r := addIf d "co2" "_CO2" (some "%") r
  let r := addIf d "fumes" "_Fumées" (some "%") r
  let r := addIf d "fuel" "_Combustible" (some "%") r
  let r := addIf d "cleaning_in" "_Nettoyage dans" (some "h") r
  let r := addIf d "state" "_État" Option.none r
  let r := addIf d "mode" "_Mode" Option.none r
  let r := addIf d "name" "_Nom" Option.none r
  addIf d "timestamp" "_Dernière mise à jour" Option.none r

/-- Meta section of `_parse_status_data` (`__init__.py` lines 236-245). -/
def parse_status_meta (d : PyValue) (r : PyDict Entry) : PyDict Entry :=
  match d.get? "meta" with
  | some meta =>
    let r := addIf meta "sw_version" "_Version firmware" Option.none r
    let r := addIf meta "sn" "_Numéro de série" Option.none r
    let r := addIf meta "typ" "_Modèle" Option.none r
    addIf meta "language" "_Langue" Option.none r
  | Option.none => r

/-- Heating-circuit section of `_parse_status_data` (`__init__.py` lines
248-256). -/
def parse_status_heat (d : PyValue) (r : PyDict Entry) : PyDict Entry :=
  match d.get? "heat_circ" with
  | some hc => (pyIter hc).enum.foldl heat_circ_step r
  | Option.none => r

/-- Water-circuit section of `_parse_status_data` (`__init__.py` lines
259-265). -/
def parse_status_water (d : PyValue) (r : PyDict Entry) : PyDict Entry :=
  match d.get? "water_circ" with
  | some wc => (pyIter wc).enum.foldl water_circ_step r
  | Option.none => r

/-- Truthiness-guarded body of the error section: the active-error
count record followed by one stringified record per error entry. -/
def parse_status_errors_body (errv : PyValue) (r : PyDict Entry) : PyDict Entry :=
  if pyTruthy errv then
    (pyIter errv).enum.foldl error_step
      (dictInsert r "_Erreurs actives" (.int (pyLen errv : Int), Option.none))
  else r

/-- Error section of `_parse_status_data` (`__init__.py` lines
268-271): guarded by `if "error" in data and data["error"]`. -/
def parse_status_errors (d : PyValue) (r : PyDict Entry) : PyDict Entry :=
  match d.get? "error" with
  | some errv => parse_status_errors_body errv r
  | Option.none => r

/-- `Biostar._parse_status_data` (`__init__.py` lines 205-273),
assembled from its sections in source order starting from the empty
result dictionary. -/
def parse_status_data (d : PyValue) : PyDict Entry :=
  parse_status_errors d (parse_status_water d (parse_status_heat d
    (parse_status_meta d (parse_status_scalars d []))))

/-- The mutable client fields set in `Biostar.__init__` (`__init__.py`
lines 71-73) and updated by `_async_get_data`. -/
structure ClientState where
  device_info : PyValue
  heating_circuits : PyValue
  heat_constraints : PyValue

/-- Initial cached state (`__init__.py` lines 71-73): no device info, no
circuits, default temperature constraints. -/
def biostar_init : ClientState :=
  ⟨.none, .list [],
    .dict [("min", .float 15), ("max", .float 30), ("inc", .float (1/2))]⟩

/-- The three endpoint responses consumed by one refresh. -/
structure RefreshInput where
  statusResp : FetchResult (Option PyValue)
  descResp : FetchResult String
  dataResp : FetchResult String

/-- Cache updates of `_async_get_data` (`__init__.py` lines 171-181):
each of `meta`, `heat_circ`, `heat_constraints` overwrites its cached
field only when present in the status payload. -/
def update_cached (self : ClientState) (sd : PyValue) : ClientState :=
  ⟨(sd.get? "meta").getD self.device_info,
    (sd.get? "heat_circ").getD self.heating_circuits,
    (sd.get? "heat_constraints").getD self.heat_constraints⟩

/-- The status-derived part of the snapshot: `_parse_status_data` when
the status payload is available and truthy, empty otherwise
(`__init__.py` lines 165-184). -/
def status_snapshot (inp : RefreshInput) : PyDict Entry :=
  match async_get_status_data inp.statusResp with
  | some sd => if pyTruthy sd then parse_status_data sd else []
  | Option.none => []

/-- Cached state after one refresh (`__init__.py` lines 170-181): the
cache is touched only when the status payload is available and truthy. -/
def cache_after (self : ClientState) (inp : RefreshInput) : ClientState :=
  match async_get_status_data inp.statusResp with
  | some sd => if pyTruthy sd then update_cached self sd else self
  | Option.none => self

/-- One step of the merge loop (`__init__.py` lines 191-193): a legacy
entry is added only when its key is not already present. -/
def merge_step (r : PyDict Entry) (kv : String × Entry) : PyDict Entry :=
  if hasKey r kv.1 then r else dictInsert r kv.1 kv.2

/-- The merge loop over the legacy items. -/
def merge_legacy (result legacy : PyDict Entry) : PyDict Entry :=
  legacy.foldl merge_step result

/-- Tail of `_async_get_data` (`__init__.py` lines 186-198): merge the
legacy data into the status result; on legacy failure re-raise only when
the status result is empty. -/
def finish_refresh (result : PyDict Entry)
    (legacyRes : Except String (PyDict Entry)) : Except String (PyDict Entry) :=
  match legacyRes with
  | .ok l => .ok (merge_legacy result l)
  | .error e => if result.isEmpty then .error e else .ok result

/-- `Biostar._async_get_data` (`__init__.py` lines 160-203), returning
the updated cached state together with the refresh outcome. -/
def async_get_data (self : ClientState) (inp : RefreshInput) :
    ClientState × Except String (PyDict Entry) :=
  (cache_after self inp,
    finish_refresh (status_snapshot inp)
      (async_get_legacy_data inp.descResp inp.dataResp))

/-- The refresh outcome alone. -/
def refresh_result (self : ClientState) (inp : RefreshInput) :
    Except String (PyDict Entry) :=
  (async_get_data self inp).2

/-- The write-credential field of the client (`__init__.py` line 70). -/
structure WriteClient where
  write_key : Option String

/-- `Biostar.has_write_access` (`__init__.py` lines 279-281):
`self._write_key is not None and len(self._write_key) > 0`. -/
def has_write_access (c : WriteClient) : Bool :=
  match c.write_key with
  | some k => k.length > 0
  | Option.none => false

/-- Body of a write-endpoint response: the decoded JSON value when
`resp.json(content_type=None)` succeeds (else `none`), and the raw text
used by the fallback inspection. -/
structure ExtBody where
  json : Option PyValue
  text : String

/-- Python `needle in obj` on a decoded value: key membership on dicts,
substring on strings, element equality on lists; `none` models the
`TypeError` raised on other types (caught by the surrounding
`except`). -/
def pyContains? (needle : String) : PyValue → Option Bool
  | .dict fs => some (hasKey fs needle)
  | .str t => some (pySubstr t needle)
  | .list xs =>
    some (xs.any (fun v => match v with | .str s => s == needle | _ => false))
  | _ => Option.none

/-- The raw-text acknowledgment check used when JSON decoding fails
(`__init__.py` lines 305-306 and 365-366):
`"OK" in text or "ack" in text.lower()`. -/
def textAck (t : String) : Bool :=
  pySubstr t "OK" || pySubstr (pyLowerStr t) "ack"

/-- Requests dispatched by a write call, identified by endpoint path.  A
request is recorded whenever the GET is issued, even if it ends in a
transport exception. -/
abbrev Trace := List String

/-- The extended-endpoint stage of `Biostar.setProgram` (`__init__.py`
lines 292-310): `some true` models an early `return True`; `none` models
falling through to the legacy endpoint.  Falling through happens on
transport error, on non-200, on a decoded body without `ack` (the `err`
branch only logs — it does not return), and on an undecodable body whose
text lacks `OK`/`ack`.  A decoded body on which `in` raises goes to the
text inspection, as the `except` clause does. -/
def setProgram_ext (r : FetchResult ExtBody) : Option Bool :=
  match r with
  | .exn => Option.none
  | .resp st body =>
    if st = 200 then
      match body.json with
      | some status =>
        match pyContains? "ack" status with
        | some true => some true
        | some false => Option.none
        | Option.none => if textAck body.text then some true else Option.none
      | Option.none => if textAck body.text then some true else Option.none
    else Option.none

/-- The legacy `/parset.cgi` stage of `Biostar.setProgram`
(`__init__.py` lines 313-325): HTTP 200 is unconditional success, any
other status or a transport error returns failure. -/
def legacy_write_ok : FetchResult String → Bool
  | .resp st _ => st == 200
  | .exn => false

/-- `Biostar.setProgram` (`__init__.py` lines 283-325): write-access
gate, extended endpoint, then the legacy `/parset.cgi` fallback treating
HTTP 200 as unconditional success.  The integer `program_id` only feeds
the request parameters, which do not affect control flow.  Returns the
boolean result together with the dispatched-request trace. -/
def setProgram (c : WriteClient) (program_id : Int)
    (extResp : FetchResult ExtBody) (legacyResp : FetchResult String) :
    Bool × Trace :=
  if !has_write_access c then (false, [])
  else
    let _params := ("PR001", toString program_id)
    match setProgram_ext extResp with
    | some b => (b, ["/ext/parset.cgi"])
    | Option.none =>
      (legacy_write_ok legacyResp, ["/ext/parset.cgi", "/parset.cgi"])

/-- `Biostar.setTemperature` (`__init__.py` lines 327-375): write-access
gate, then a single extended-endpoint attempt.  `ack` returns success;
`err` returns failure; every other outcome (non-200, transport error,
decoded body with neither field, undecodable body without a text ack)
reaches the final `return False`.  The circuit number and temperature
only feed the request parameters (`syn`, `value`). -/
def setTemperature (c : WriteClient) (circuit_nr : Int) (temp_type : String)
    (_value : ℚ) (extResp : FetchResult ExtBody) : Bool × Trace :=
  if !has_write_access c then (false, [])
  else
    let _syn := "HK" ++ toString (circuit_nr + 1) ++
      (if temp_type = "day" then "02" else "03")
    let result :=
      match extResp with
      | .exn => false
      | .resp st body =>
        if st = 200 then
          match body.json with
          | some status =>
            match pyContains? "ack" status with
            | some true => true
            | some false =>
              match pyContains? "err" status with
              | some true => false
              | some false => false
              | Option.none => textAck body.text
            | Option.none => textAck body.text
          | Option.none => textAck body.text
        else false
    (result, ["/ext/parset.cgi"])


/-! ## Dictionary lemmas -/

theorem hasKey_append {α : Type} (d e : PyDict α) (k : String) :
    hasKey (d ++ e) k = (hasKey d k || hasKey e k) := by
  induction d with
  | nil => simp [hasKey]
  | cons kv t ih => simp [hasKey, ih, Bool.or_assoc]

theorem get?_none_of_hasKey_eq_false {α : Type} (d : PyDict α) (k : String)
    (h : hasKey d k = false) : dictGet? d k = Option.none := by
  induction d with
  | nil => simp [dictGet?]
  | cons kv t ih =>
    simp only [hasKey, Bool.or_eq_false_iff] at h
    simp [dictGet?, h.1, ih h.2]

theorem get?_isSome_of_hasKey {α : Type} (d : PyDict α) (k : String)
    (h : hasKey d k = true) : (dictGet? d k).isSome = true := by
  induction d with
  | nil => simp [hasKey] at h
  | cons kv t ih =>
    simp only [hasKey, Bool.or_eq_true] at h
    by_cases hk : kv.1 == k
    · simp [dictGet?, hk]
    · rcases h with h | h
      · exact absurd h hk
      · simp [dictGet?, hk, ih h]

theorem dictGet?_append_left {α : Type} (d e : PyDict α) (k : String)
    (h : hasKey d k = true) : dictGet? (d ++ e) k = dictGet? d k := by
  induction d with
  | nil => simp [hasKey] at h
  | cons kv t ih =>
    simp only [hasKey, Bool.or_eq_true] at h
    by_cases hk : kv.1 == k
    · simp [dictGet?, hk]
    · rcases h with h | h
      · exact absurd h hk
      · simp [dictGet?, hk, ih h]

theorem dictGet?_append_right {α : Type} (d e : PyDict α) (k : String)
    (h : hasKey d k = false) : dictGet? (d ++ e) k = dictGet? e k := by
  induction d with
  | nil => simp
  | cons kv t ih =>
    simp only [hasKey, Bool.or_eq_false_iff] at h
    simp [dictGet?, h.1, ih h.2]

theorem keyfix_fst {α : Type} (k : String) (v : α) (kv : String × α) :
    (if kv.1 == k then (k, v) else kv).1 = kv.1 := by
  by_cases hk : kv.1 == k
  · rw [if_pos hk]
    exact (beq_iff_eq.mp hk).symm
  · rw [if_neg hk]

theorem hasKey_map_keyfix {α : Type} (d : PyDict α) (k k2 : String) (v : α) :
    hasKey (d.map (fun kv => if kv.1 == k then (k, v) else kv)) k2 = hasKey d k2 := by
  induction d with
  | nil => rfl
  | cons kv t ih =>
    simp only [List.map_cons, hasKey]
    rw [keyfix_fst, ih]

theorem hasKey_dictInsert {α : Type} (d : PyDict α) (k k2 : String) (v : α) :
    hasKey (dictInsert d k v) k2 = (hasKey d k2 || k == k2) := by
  unfold dictInsert
  by_cases hd : hasKey d k
  · rw [if_pos hd, hasKey_map_keyfix]
    by_cases hk : k == k2
    · have hk2 : k = k2 := beq_iff_eq.mp hk
      subst hk2
      rw [hd]
      simp
    · simp [hk]
  · rw [if_neg hd, hasKey_append]
    simp [hasKey]

theorem dictInsert_of_not_hasKey {α : Type} (d : PyDict α) (k : String) (v : α)
    (h : hasKey d k = false) : dictInsert d k v = d ++ [(k, v)] := by
  simp [dictInsert, h]

/-- Keys of a dictionary pairwise distinct; all dictionaries built by
`dictInsert` satisfy it. -/
def NodupKeys {α : Type} (d : PyDict α) : Prop :=
  (d.map Prod.fst).Nodup

theorem hasKey_iff_mem_keys {α : Type} (d : PyDict α) (k : String) :
    hasKey d k = true ↔ k ∈ d.map Prod.fst := by
  induction d with
  | nil => simp [hasKey]
  | cons kv t ih =>
    simp only [hasKey, Bool.or_eq_true, List.map_cons, List.mem_cons, ih]
    constructor
    · rintro (h | h)
      · exact Or.inl (beq_iff_eq.mp h).symm
      · exact Or.inr h
    · rintro (h | h)
      · exact Or.inl (beq_iff_eq.mpr h.symm)
      · exact Or.inr h

theorem nodupKeys_dictInsert {α : Type} (d : PyDict α) (k : String) (v : α)
    (h : NodupKeys d) : NodupKeys (dictInsert d k v) := by
  unfold dictInsert
  by_cases hd : hasKey d k
  · rw [if_pos hd]
    have hmap : (d.map (fun kv => if kv.1 == k then (k, v) else kv)).map Prod.fst =
        d.map Prod.fst := by
      rw [List.map_map]
      apply List.map_congr_left
      intro kv _
      exact keyfix_fst k v kv
    unfold NodupKeys
    rw [hmap]
    exact h
  · rw [if_neg hd]
    unfold NodupKeys
    rw [List.map_append]
    simp only [List.map_cons, List.map_nil]
    rw [List.nodup_append]
    refine ⟨h, List.nodup_singleton _, ?_⟩
    intro a ha hb
    simp only [List.mem_singleton] at hb
    subst hb
    rw [hasKey_iff_mem_keys] at hd
    exact hd ha

/-! ## Merge lemmas -/

theorem merge_legacy_nil (base : PyDict Entry) : merge_legacy base [] = base := rfl

theorem merge_legacy_cons (base : PyDict Entry) (kv : String × Entry)
    (tl : PyDict Entry) :
    merge_legacy base (kv :: tl) = merge_legacy (merge_step base kv) tl := rfl

theorem merge_hasKey (l : PyDict Entry) :
    ∀ (base : PyDict Entry) (k : String),
      hasKey (merge_legacy base l) k = (hasKey base k || hasKey l k) := by
  induction l with
  | nil => intro base k; simp [merge_legacy_nil, hasKey]
  | cons kv tl ih =>
    intro base k
    rw [merge_legacy_cons]
    unfold merge_step
    by_cases hb : hasKey base kv.1
    · rw [if_pos hb, ih]
      by_cases hk : kv.1 == k
      · have : kv.1 = k := beq_iff_eq.mp hk
        subst this
        simp [hasKey, hb, hk]
      · simp [hasKey, hk]
    · have hbf : hasKey base kv.1 = false := by simpa using hb
      rw [if_neg hb, ih, hasKey_dictInsert]
      simp [hasKey, Bool.or_assoc, Bool.or_comm, Bool.or_left_comm]

theorem merge_get_of_base (l : PyDict Entry) :
    ∀ (base : PyDict Entry) (k : String), hasKey base k = true →
      dictGet? (merge_legacy base l) k = dictGet? base k := by
  induction l with
  | nil => intro base k _; rw [merge_legacy_nil]
  | cons kv tl ih =>
    intro base k hk
    rw [merge_legacy_cons]
    unfold merge_step
    by_cases hb : hasKey base kv.1
    · rw [if_pos hb]
      exact ih base k hk
    · have hbf : hasKey base kv.1 = false := by simpa using hb
      rw [if_neg hb, dictInsert_of_not_hasKey base kv.1 kv.2 hbf]
      rw [ih (base ++ [(kv.1, kv.2)]) k (by rw [hasKey_append]; simp [hk])]
      exact dictGet?_append_left base [(kv.1, kv.2)] k hk

theorem merge_get_of_not_base (l : PyDict Entry) :
    ∀ (base : PyDict Entry) (k : String), hasKey base k = false →
      dictGet? (merge_legacy base l) k = dictGet? l k := by
  induction l with
  | nil =>
    intro base k hk
    rw [merge_legacy_nil, get?_none_of_hasKey_eq_false base k hk]
    rfl
  | cons kv tl ih =>
    intro base k hk
    rw [merge_legacy_cons]
    unfold merge_step
    by_cases hkk : kv.1 == k
    · have hkk2 : kv.1 = k := beq_iff_eq.mp hkk
      have hb : hasKey base kv.1 = false := by rw [hkk2]; exact hk
      rw [if_neg (by simp [hb]), dictInsert_of_not_hasKey base kv.1 kv.2 hb]
      have hbk : hasKey (base ++ [(kv.1, kv.2)]) k = true := by
        rw [hasKey_append]
        simp [hasKey, hkk]
      rw [merge_get_of_base tl (base ++ [(kv.1, kv.2)]) k hbk]
      rw [dictGet?_append_right base [(kv.1, kv.2)] k hk]
      simp [dictGet?, hkk]
    · by_cases hb : hasKey base kv.1
      · rw [if_pos hb, ih base k hk]
        simp [dictGet?, hkk]
      · have hbf : hasKey base kv.1 = false := by simpa using hb
        rw [if_neg hb, dictInsert_of_not_hasKey base kv.1 kv.2 hbf]
        have hk2 : hasKey (base ++ [(kv.1, kv.2)]) k = false := by
          rw [hasKey_append]
          simp [hasKey, hk, hkk]
        rw [ih (base ++ [(kv.1, kv.2)]) k hk2]
        simp [dictGet?, hkk]

theorem merge_legacy_append_of_nodup (l : PyDict Entry) :
    ∀ (base : PyDict Entry), NodupKeys (base ++ l) →
      merge_legacy base l = base ++ l := by
  induction l with
  | nil => intro base _; simp [merge_legacy_nil]
  | cons kv tl ih =>
    intro base hnd
    have hb : hasKey base kv.1 = false := by
      by_contra hc
      have hb2 : hasKey base kv.1 = true := by
        cases h2 : hasKey base kv.1
        · exact absurd h2 hc
        · rfl
      rw [hasKey_iff_mem_keys] at hb2
      unfold NodupKeys at hnd
      rw [List.map_append, List.nodup_append] at hnd
      exact hnd.2.2 hb2 (by simp)
    rw [merge_legacy_cons]
    unfold merge_step
    rw [if_neg (by simp [hb]), dictInsert_of_not_hasKey base kv.1 kv.2 hb]
    have heq : (base ++ [(kv.1, kv.2)]) ++ tl = base ++ kv :: tl := by
      rw [List.append_assoc]
      rfl
    rw [ih (base ++ [(kv.1, kv.2)]) (by rw [heq]; exact hnd), heq]

theorem merge_legacy_nil_left (l : PyDict Entry) (h : NodupKeys l) :
    merge_legacy [] l = l := by
  have := merge_legacy_append_of_nodup l [] (by simpa [NodupKeys] using h)
  simpa using this

/-! ## Fold preservation lemmas -/

theorem foldl_key_pres {β : Type} (step : PyDict Entry → β → PyDict Entry)
    (P : String → Prop)
    (hstep : ∀ acc x k, hasKey (step acc x) k = true → P k ∨ hasKey acc k = true)
    (xs : List β) :
    ∀ (acc : PyDict Entry) (k : String),
      hasKey (List.foldl step acc xs) k = true → P k ∨ hasKey acc k = true := by
  induction xs with
  | nil => intro acc k h; exact Or.inr h
  | cons x t ih =>
    intro acc k h
    rcases ih (step acc x) k h with h2 | h2
    · exact Or.inl h2
    · exact hstep acc x k h2

theorem foldl_nodup_pres {β : Type} (step : PyDict Entry → β → PyDict Entry)
    (hstep : ∀ acc x, NodupKeys acc → NodupKeys (step acc x))
    (xs : List β) :
    ∀ acc, NodupKeys acc → NodupKeys (List.foldl step acc xs) := by
  induction xs with
  | nil => intro acc h; exact h
  | cons x t ih => intro acc h; exact ih (step acc x) (hstep acc x h)

/-! ## Legacy-parser lemmas -/

/-- The reserved-key filter of the legacy parser, as checked at
`__init__.py` line 132. -/
def notExcluded (k : String) : Prop :=
  ¬(pyLowerStr k = "reserved" ∨ pyLowerStr k = "réservé" ∨
    pyLowerStr k = "reserviert")

theorem legacy_step_fields_keys (acc : PyDict Entry) (vl : String)
    (fields : List String) (k : String)
    (h : hasKey (legacy_step_fields acc vl fields) k = true) :
    notExcluded k ∨ hasKey acc k = true := by
  rcases fields with _ | ⟨key, _ | ⟨u, _ | ⟨x, rest⟩⟩⟩
  · exact Or.inr h
  · exact Or.inr h
  · simp only [legacy_step_fields] at h
    by_cases hres : pyLowerStr key = "reserved" ∨ pyLowerStr key = "réservé" ∨
        pyLowerStr key = "reserviert"
    · rw [if_pos hres] at h
      exact Or.inr h
    · rw [if_neg hres] at h
      rw [hasKey_dictInsert] at h
      rcases Bool.or_eq_true_iff.mp h with h2 | h2
      · exact Or.inr h2
      · have hkey : key = k := beq_iff_eq.mp h2
        subst hkey
        exact Or.inl hres
  · exact Or.inr h

theorem legacy_step_keys (acc : PyDict Entry) (dl vl : String) (k : String)
    (h : hasKey (legacy_step acc dl vl) k = true) :
    notExcluded k ∨ hasKey acc k = true :=
  legacy_step_fields_keys acc vl (pySplit dl ';') k h

theorem legacy_step_fields_nodup (acc : PyDict Entry) (vl : String)
    (fields : List String) (h : NodupKeys acc) :
    NodupKeys (legacy_step_fields acc vl fields) := by
  rcases fields with _ | ⟨key, _ | ⟨u, _ | ⟨x, rest⟩⟩⟩
  · exact h
  · exact h
  · simp only [legacy_step_fields]
    by_cases hres : pyLowerStr key = "reserved" ∨ pyLowerStr key = "réservé" ∨
        pyLowerStr key = "reserviert"
    · rw [if_pos hres]
      exact h
    · rw [if_neg hres]
      exact nodupKeys_dictInsert _ _ _ h
  · exact h

theorem legacy_step_nodup (acc : PyDict Entry) (dl vl : String)
    (h : NodupKeys acc) : NodupKeys (legacy_step acc dl vl) :=
  legacy_step_fields_nodup acc vl (pySplit dl ';') h

theorem legacy_parse_lines_keys (desc vals : List String) (k : String)
    (h : hasKey (legacy_parse_lines desc vals) k = true) : notExcluded k := by
  unfold legacy_parse_lines at h
  rcases foldl_key_pres _ notExcluded
      (fun acc i k2 h2 => legacy_step_keys acc _ _ k2 h2) _ _ _ h with h2 | h2
  · exact h2
  · simp [hasKey] at h2

theorem legacy_parse_lines_nodup (desc vals : List String) :
    NodupKeys (legacy_parse_lines desc vals) := by
  unfold legacy_parse_lines
  exact foldl_nodup_pres _ (fun acc i h => legacy_step_nodup acc _ _ h) _ _
    (by simp [NodupKeys])

/-- Any successful legacy fetch yields either the empty dictionary or a
parsed line list. -/
theorem legacy_data_cases (descResp dataResp : FetchResult String)
    (l : PyDict Entry) (h : async_get_legacy_data descResp dataResp = .ok l) :
    l = [] ∨ ∃ d v, l = legacy_parse_lines d v := by
  unfold async_get_legacy_data at h
  split at h
  · simp at h
  · split at h
    · simp at h
    · split at h
      · simp at h
      · split at h
        · simp at h
        · simp only [] at h
          split at h
          · injection h with h2
            exact Or.inr ⟨_, _, h2.symm⟩
          · injection h with h2
            exact Or.inl h2.symm

theorem legacy_result_nodup (descResp dataResp : FetchResult String)
    (l : PyDict Entry) (h : async_get_legacy_data descResp dataResp = .ok l) :
    NodupKeys l := by
  rcases legacy_data_cases descResp dataResp l h with h2 | ⟨d, v, h2⟩
  · subst h2
    simp [NodupKeys]
  · subst h2
    exact legacy_parse_lines_nodup d v

theorem legacy_result_keys (descResp dataResp : FetchResult String)
    (l : PyDict Entry) (h : async_get_legacy_data descResp dataResp = .ok l)
    (k : String) (hk : hasKey l k = true) : notExcluded k := by
  rcases legacy_data_cases descResp dataResp l h with h2 | ⟨d, v, h2⟩
  · subst h2
    simp [hasKey] at hk
  · subst h2
    exact legacy_parse_lines_keys d v k hk

/-- The legacy parsing loop only reads the first
`min len(desc) len(values)` lines of either list: surplus lines on
either side never influence the result. -/
theorem legacy_parse_lines_take (desc vals : List String) :
    legacy_parse_lines desc vals =
      legacy_parse_lines (desc.take (min desc.length vals.length))
        (vals.take (min desc.length vals.length)) := by
  unfold legacy_parse_lines
  have hlen : min (desc.take (min desc.length vals.length)).length
      (vals.take (min desc.length vals.length)).length =
      min desc.length vals.length := by
    simp [List.length_take]
  rw [hlen]
  apply List.foldl_ext
  intro a b hb
  have hbn : b < min desc.length vals.length := List.mem_range.mp hb
  have hd : (desc.take (min desc.length vals.length)).getD b "" = desc.getD b "" := by
    rcases Nat.lt_or_ge b desc.length with hl | hl
    · rw [List.getD_eq_getElem _ _ (by simp; omega), List.getD_eq_getElem _ _ hl]
      simp [List.getElem_take]
    · rw [List.getD_eq_default _ _ (by simp; omega), List.getD_eq_default _ _ hl]
  have hv : (vals.take (min desc.length vals.length)).getD b "" = vals.getD b "" := by
    rcases Nat.lt_or_ge b vals.length with hl | hl
    · rw [List.getD_eq_getElem _ _ (by simp; omega), List.getD_eq_getElem _ _ hl]
      simp [List.getElem_take]
    · rw [List.getD_eq_default _ _ (by simp; omega), List.getD_eq_default _ _ hl]
  rw [hd, hv]

/-! ## Status-parser key shape -/

/-- A key beginning with the character `_`. -/
def underscored (s : String) : Bool :=
  s.data.head? == some '_'

theorem underscored_append (s t : String) (h : underscored s = true) :
    underscored (s ++ t) = true := by
  unfold underscored at *
  rw [String.data_append]
  cases hd : s.data with
  | nil => rw [hd] at h; simp at h
  | cons c r =>
    rw [hd] at h
    simp at h
    simp [hd, h]

/-- Result-transformers that only ever add `_`-prefixed keys. -/
def PresU (f : PyDict Entry → PyDict Entry) : Prop :=
  ∀ r k, hasKey (f r) k = true → underscored k = true ∨ hasKey r k = true

theorem presU_dictInsert (lbl : String) (v : Entry) (h : underscored lbl = true) :
    PresU (fun r => dictInsert r lbl v) := by
  intro r k hk
  rw [hasKey_dictInsert] at hk
  rcases Bool.or_eq_true_iff.mp hk with h2 | h2
  · exact Or.inr h2
  · have : lbl = k := beq_iff_eq.mp h2
    subst this
    exact Or.inl h

theorem presU_addIf (d : PyValue) (k2 lbl : String) (u : Option String)
    (h : underscored lbl = true) : PresU (addIf d k2 lbl u) := by
  intro r k hk
  unfold addIf at hk
  cases hget : d.get? k2 with
  | none => rw [hget] at hk; exact Or.inr hk
  | some v =>
    rw [hget] at hk
    exact presU_dictInsert lbl (v, u) h r k hk

theorem presU_comp (f g : PyDict Entry → PyDict Entry)
    (hf : PresU f) (hg : PresU g) : PresU (fun r => g (f r)) := by
  intro r k hk
  rcases hg (f r) k hk with h2 | h2
  · exact Or.inl h2
  · exact hf r k h2

theorem presU_foldl {β : Type} (step : PyDict Entry → β → PyDict Entry)
    (h : ∀ x, PresU (fun r => step r x)) (xs : List β) :
    PresU (fun r => xs.foldl step r) := by
  intro r k hk
  exact foldl_key_pres step (fun k2 => underscored k2 = true)
    (fun acc x k2 h2 => h x acc k2 h2) xs r k hk

theorem presU_heat_circ_step (ic : Nat × PyValue) :
    PresU (fun r => heat_circ_step r ic) := by
  intro r k hk
  unfold heat_circ_step at hk
  have hu : underscored ("_Circuit " ++ pyStr ((ic.2.get? "name").getD (.int (ic.1 : Int)))) = true :=
    underscored_append _ _ (by decide)
  rcases presU_addIf ic.2 "mode" _ Option.none (underscored_append _ _ hu) _ k hk with h2 | h2
  · exact Or.inl h2
  rcases presU_addIf ic.2 "night_temp" _ (some "°C") (underscored_append _ _ hu) _ k h2 with h3 | h3
  · exact Or.inl h3
  rcases presU_addIf ic.2 "day_temp" _ (some "°C") (underscored_append _ _ hu) _ k h3 with h4 | h4
  · exact Or.inl h4
  · exact Or.inr h4

theorem presU_water_circ_step (ic : Nat × PyValue) :
    PresU (fun r => water_circ_step r ic) := by
  intro r k hk
  unfold water_circ_step at hk
  have hu : underscored ("_ECS " ++ pyStr ((ic.2.get? "name").getD (.int (ic.1 : Int)))) = true :=
    underscored_append _ _ (by decide)
  rcases presU_addIf ic.2 "mode" _ Option.none (underscored_append _ _ hu) _ k hk with h2 | h2
  · exact Or.inl h2
  rcases presU_addIf ic.2 "temp" _ (some "°C") (underscored_append _ _ hu) _ k h2 with h3 | h3
  · exact Or.inl h3
  · exact Or.inr h3

theorem presU_error_step (ie : Nat × PyValue) :
    PresU (fun r => error_step r ie) := by
  intro r k hk
  unfold error_step at hk
  exact presU_dictInsert _ _ (underscored_append "_Erreur " _ (by decide)) r k hk

theorem presU_scalars (d : PyValue) : PresU (parse_status_scalars d) := by
  intro r k hk
  unfold parse_status_scalars at hk
  rcases presU_addIf d "timestamp" "_Dernière mise à jour" Option.none (by decide) _ k hk with h | h
  · exact Or.inl h
  rcases presU_addIf d "name" "_Nom" Option.none (by decide) _ k h with h | h
  · exact Or.inl h
  rcases presU_addIf d "mode" "_Mode" Option.none (by decide) _ k h with h | h
  · exact Or.inl h
  rcases presU_addIf d "state" "_État" Option.none (by decide) _ k h with h | h
  · exact Or.inl h
  rcases presU_addIf d "cleaning_in" "_Nettoyage dans" (some "h") (by decide) _ k h with h | h
  · exact Or.inl h
  rcases presU_addIf d "fuel" "_Combustible" (some "%") (by decide) _ k h with h | h
  · exact Or.inl h
  rcases presU_addIf d "fumes" "_Fumées" (some "%") (by decide) _ k h with h | h
  · exact Or.inl h
  rcases presU_addIf d "co2" "_CO2" (some "%") (by decide) _ k h with h | h
  · exact Or.inl h
  rcases presU_addIf d "ext_temp" "_Température extérieure" (some "°C") (by decide) _ k h with h | h
  · exact Or.inl h
  rcases presU_addIf d "temp" "_Température chaudière" (some "°C") (by decide) _ k h with h | h
  · exact Or.inl h
  · exact Or.inr h

theorem presU_meta (d : PyValue) : PresU (parse_status_meta d) := by
  intro r k hk
  unfold parse_status_meta at hk
  cases hget : d.get? "meta" with
  | none => rw [hget] at hk; exact Or.inr hk
  | some meta =>
    rw [hget] at hk
    rcases presU_addIf meta "language" "_Langue" Option.none (by decide) _ k hk with h | h
    · exact Or.inl h
    rcases presU_addIf meta "typ" "_Modèle" Option.none (by decide) _ k h with h | h
    · exact Or.inl h
    rcases presU_addIf meta "sn" "_Numéro de série" Option.none (by decide) _ k h with h | h
    · exact Or.inl h
    rcases presU_addIf meta "sw_version" "_Version firmware" Option.none (by decide) _ k h with h | h
    · exact Or.inl h
    · exact Or.inr h

theorem presU_heat (d : PyValue) : PresU (parse_status_heat d) := by
  intro r k hk
  unfold parse_status_heat at hk
  cases hget : d.get? "heat_circ" with
  | none => rw [hget] at hk; exact Or.inr hk
  | some hc =>
    rw [hget] at hk
    exact presU_foldl heat_circ_step presU_heat_circ_step _ r k hk

theorem presU_water (d : PyValue) : PresU (parse_status_water d) := by
  intro r k hk
  unfold parse_status_water at hk
  cases hget : d.get? "water_circ" with
  | none => rw [hget] at hk; exact Or.inr hk
  | some wc =>
    rw [hget] at hk
    exact presU_foldl water_circ_step presU_water_circ_step _ r k hk

theorem presU_errors_body (errv : PyValue) :
    PresU (parse_status_errors_body errv) := by
  intro r k hk
  unfold parse_status_errors_body at hk
  by_cases htr : pyTruthy errv
  · rw [if_pos htr] at hk
    rcases presU_foldl error_step presU_error_step _ _ k hk with h | h
    · exact Or.inl h
    · exact presU_dictInsert "_Erreurs actives" _ (by decide) r k h
  · rw [if_neg htr] at hk
    exact Or.inr hk

theorem presU_errors (d : PyValue) : PresU (parse_status_errors d) := by
  intro r k hk
  unfold parse_status_errors at hk
  cases hget : d.get? "error" with
  | none => rw [hget] at hk; exact Or.inr hk
  | some errv =>
    rw [hget] at hk
    exact presU_errors_body errv r k hk

/-- Every key emitted by `_parse_status_data` begins with `_`. -/
theorem parse_status_underscored (d : PyValue) (k : String)
    (h : hasKey (parse_status_data d) k = true) : underscored k = true := by
  unfold parse_status_data at h
  rcases presU_errors d _ k h with h2 | h2
  · exact h2
  rcases presU_water d _ k h2 with h3 | h3
  · exact h3
  rcases presU_heat d _ k h3 with h4 | h4
  · exact h4
  rcases presU_meta d _ k h4 with h5 | h5
  · exact h5
  rcases presU_scalars d _ k h5 with h6 | h6
  · exact h6
  · simp [hasKey] at h6

/-! ## Refresh-level helpers -/

/-- `true` on a successful `Except` outcome. -/
def exceptOk {ε α : Type} : Except ε α → Bool
  | .ok _ => true
  | .error _ => false

/-- Whether the refresh input carries a truthy status payload containing
the given top-level field. -/
def reports_field (inp : RefreshInput) (fld : String) : Bool :=
  match async_get_status_data inp.statusResp with
  | some sd => pyTruthy sd && (sd.get? fld).isSome
  | Option.none => false

/-- Iterated refreshes threading the cached client state. -/
def run_refreshes (st : ClientState) (l : List RefreshInput) : ClientState :=
  l.foldl (fun s i => (async_get_data s i).1) st

theorem finish_refresh_ok (result l : PyDict Entry) :
    finish_refresh result (.ok l) = .ok (merge_legacy result l) := rfl

theorem finish_refresh_error (result : PyDict Entry) (e : String) :
    finish_refresh result (.error e) =
      if result.isEmpty then .error e else .ok result := rfl

theorem refresh_result_eq (st : ClientState) (inp : RefreshInput) :
    refresh_result st inp = finish_refresh (status_snapshot inp)
      (async_get_legacy_data inp.descResp inp.dataResp) := rfl

theorem status_snapshot_of_unavailable (inp : RefreshInput)
    (h : async_get_status_data inp.statusResp = Option.none) :
    status_snapshot inp = [] := by
  unfold status_snapshot
  rw [h]

theorem status_snapshot_of_some (inp : RefreshInput) (sd : PyValue)
    (h : async_get_status_data inp.statusResp = some sd) :
    status_snapshot inp = if pyTruthy sd then parse_status_data sd else [] := by
  unfold status_snapshot
  rw [h]

theorem cache_after_of_unavailable (st : ClientState) (inp : RefreshInput)
    (h : async_get_status_data inp.statusResp = Option.none) :
    cache_after st inp = st := by
  unfold cache_after
  rw [h]

theorem cache_after_of_some (st : ClientState) (inp : RefreshInput) (sd : PyValue)
    (h : async_get_status_data inp.statusResp = some sd) :
    cache_after st inp = if pyTruthy sd then update_cached st sd else st := by
  unfold cache_after
  rw [h]

theorem cache_meta_pres (st : ClientState) (inp : RefreshInput)
    (h : reports_field inp "meta" = false) :
    (async_get_data st inp).1.device_info = st.device_info := by
  show (cache_after st inp).device_info = st.device_info
  cases hs : async_get_status_data inp.statusResp with
  | none => rw [cache_after_of_unavailable st inp hs]
  | some sd =>
    rw [cache_after_of_some st inp sd hs]
    unfold reports_field at h
    rw [hs] at h
    have h2 : (pyTruthy sd && (sd.get? "meta").isSome) = false := h
    by_cases htr : pyTruthy sd
    · rw [if_pos htr]
      rw [htr] at h2
      simp only [Bool.true_and] at h2
      have h3 : sd.get? "meta" = Option.none := by
        cases hopt : sd.get? "meta" with
        | none => rfl
        | some v => rw [hopt] at h2; simp at h2
      unfold update_cached
      rw [h3]
      rfl
    · rw [if_neg htr]

theorem cache_circ_pres (st : ClientState) (inp : RefreshInput)
    (h : reports_field inp "heat_circ" = false) :
    (async_get_data st inp).1.heating_circuits = st.heating_circuits := by
  show (cache_after st inp).heating_circuits = st.heating_circuits
  cases hs : async_get_status_data inp.statusResp with
  | none => rw [cache_after_of_unavailable st inp hs]
  | some sd =>
    rw [cache_after_of_some st inp sd hs]
    unfold reports_field at h
    rw [hs] at h
    have h2 : (pyTruthy sd && (sd.get? "heat_circ").isSome) = false := h
    by_cases htr : pyTruthy sd
    · rw [if_pos htr]
      rw [htr] at h2
      simp only [Bool.true_and] at h2
      have h3 : sd.get? "heat_circ" = Option.none := by
        cases hopt : sd.get? "heat_circ" with
        | none => rfl
        | some v => rw [hopt] at h2; simp at h2
      unfold update_cached
      rw [h3]
      rfl
    · rw [if_neg htr]

theorem cache_constraints_pres (st : ClientState) (inp : RefreshInput)
    (h : reports_field inp "heat_constraints" = false) :
    (async_get_data st inp).1.heat_constraints = st.heat_constraints := by
  show (cache_after st inp).heat_constraints = st.heat_constraints
  cases hs : async_get_status_data inp.statusResp with
  | none => rw [cache_after_of_unavailable st inp hs]
  | some sd =>
    rw [cache_after_of_some st inp sd hs]
    unfold reports_field at h
    rw [hs] at h
    have h2 : (pyTruthy sd && (sd.get? "heat_constraints").isSome) = false := h
    by_cases htr : pyTruthy sd
    · rw [if_pos htr]
      rw [htr] at h2
      simp only [Bool.true_and] at h2
      have h3 : sd.get? "heat_constraints" = Option.none := by
        cases hopt : sd.get? "heat_constraints" with
        | none => rfl
        | some v => rw [hopt] at h2; simp at h2
      unfold update_cached
      rw [h3]
      rfl
    · rw [if_neg htr]

/-! ## Claims -/

/-- C1: the refresh fails exactly when the legacy fetch fails and the
status-derived snapshot is empty; with the status endpoint unavailable
(non-200, non-JSON or transport failure) the refresh outcome is exactly
the legacy outcome (snapshot built entirely from legacy data); with the
legacy fetch failing but a non-empty status snapshot, the refresh
succeeds with the status data. -/
theorem refresh_fails_iff_no_data (st : ClientState) (inp : RefreshInput) :
    (exceptOk (refresh_result st inp) = false ↔
      exceptOk (async_get_legacy_data inp.descResp inp.dataResp) = false ∧
        status_snapshot inp = []) ∧
    (async_get_status_data inp.statusResp = Option.none →
      refresh_result st inp = async_get_legacy_data inp.descResp inp.dataResp) ∧
    (∀ e, async_get_legacy_data inp.descResp inp.dataResp = .error e →
      status_snapshot inp ≠ [] → refresh_result st inp = .ok (status_snapshot inp)) := by
  refine ⟨?_, ?_, ?_⟩
  · rw [refresh_result_eq]
    cases hleg : async_get_legacy_data inp.descResp inp.dataResp with
    | ok l =>
      rw [finish_refresh_ok]
      simp [exceptOk]
    | error e =>
      rw [finish_refresh_error]
      by_cases hemp : (status_snapshot inp).isEmpty
      · rw [if_pos hemp]
        simp only [List.isEmpty_iff] at hemp
        simp [exceptOk, hemp]
      · rw [if_neg hemp]
        have hne : status_snapshot inp ≠ [] := by
          intro hc
          rw [hc] at hemp
          exact hemp rfl
        simp [exceptOk, hne]
  · intro hs
    rw [refresh_result_eq, status_snapshot_of_unavailable inp hs]
    cases hleg : async_get_legacy_data inp.descResp inp.dataResp with
    | ok l =>
      rw [finish_refresh_ok,
        merge_legacy_nil_left l (legacy_result_nodup _ _ l hleg)]
    | error e => rfl
  · intro e hleg hne
    rw [refresh_result_eq, hleg, finish_refresh_error,
      if_neg (by simp [List.isEmpty_iff]; exact hne)]

/-- C1 witness: with the status endpoint unavailable the refresh equals
the legacy outcome on a concrete payload, and with all three endpoints
failing the refresh fails. -/
theorem refresh_fails_iff_no_data_witness :
    refresh_result biostar_init ⟨.exn, .resp 200 "A;°C\nx", .resp 200 "5.3\nx"⟩ =
      async_get_legacy_data (.resp 200 "A;°C\nx") (.resp 200 "5.3\nx") ∧
    exceptOk (refresh_result biostar_init ⟨.exn, .exn, .exn⟩) = false := by
  constructor
  · exact (refresh_fails_iff_no_data biostar_init
      ⟨.exn, .resp 200 "A;°C\nx", .resp 200 "5.3\nx"⟩).2.1 rfl
  · exact (refresh_fails_iff_no_data biostar_init ⟨.exn, .exn, .exn⟩).1.mpr ⟨rfl, rfl⟩

/-- C2: within one refresh, a key already present in the status-derived
snapshot keeps its status-sourced value in the merge regardless of the
legacy value, and legacy entries are added only for keys not already
present (for those the merged value is exactly the legacy value). -/
theorem merge_status_precedence (st : ClientState) (inp : RefreshInput)
    (legacy : PyDict Entry)
    (hl : async_get_legacy_data inp.descResp inp.dataResp = .ok legacy) :
    refresh_result st inp = .ok (merge_legacy (status_snapshot inp) legacy) ∧
    (∀ k, hasKey (status_snapshot inp) k = true →
      dictGet? (merge_legacy (status_snapshot inp) legacy) k =
        dictGet? (status_snapshot inp) k) ∧
    (∀ k, hasKey (status_snapshot inp) k = false →
      dictGet? (merge_legacy (status_snapshot inp) legacy) k = dictGet? legacy k) ∧
    (∀ k, hasKey (merge_legacy (status_snapshot inp) legacy) k =
      (hasKey (status_snapshot inp) k || hasKey legacy k)) := by
  refine ⟨?_, ?_, ?_, ?_⟩
  · rw [refresh_result_eq, hl, finish_refresh_ok]
  · intro k hk
    exact merge_get_of_base legacy (status_snapshot inp) k hk
  · intro k hk
    exact merge_get_of_not_base legacy (status_snapshot inp) k hk
  · intro k
    exact merge_hasKey legacy (status_snapshot inp) k

/-- C2 witness: a concrete key present in both sources with different
values keeps the status-sourced value. -/
theorem merge_status_precedence_witness :
    dictGet?
      (merge_legacy
        (status_snapshot ⟨.resp 200 (some (.dict [("temp", .float 55)])),
          .resp 200 "_Température chaudière;°C\nx", .resp 200 "99\nx"⟩)
        [("_Température chaudière", (.float 99, some "°C"))])
      "_Température chaudière" = some (.float 55, some "°C") := by
  have h := merge_status_precedence biostar_init
    ⟨.resp 200 (some (.dict [("temp", .float 55)])),
      .resp 200 "_Température chaudière;°C\nx", .resp 200 "99\nx"⟩
    [("_Température chaudière", (.float 99, some "°C"))] (by rfl)
  have h2 := h.2.1 "_Température chaudière" (by rfl)
  exact h2.trans (by rfl)

/-- C3: with `has_write_access` false, both write operations return
failure immediately and dispatch no HTTP request (empty trace). -/
theorem write_gating_no_request (c : WriteClient) (h : has_write_access c = false) :
    (∀ (pid : Int) (ext : FetchResult ExtBody) (leg : FetchResult String),
      setProgram c pid ext leg = (false, [])) ∧
    (∀ (nr : Int) (tt : String) (v : ℚ) (ext : FetchResult ExtBody),
      setTemperature c nr tt v ext = (false, [])) := by
  constructor
  · intro pid ext leg
    unfold setProgram
    rw [h]
    rfl
  · intro nr tt v ext
    unfold setTemperature
    rw [h]
    rfl

/-- C3 witness: a client with no write key (or an empty one) fails both
writes with zero dispatched requests. -/
theorem write_gating_no_request_witness :
    setProgram ⟨Option.none⟩ 2 .exn .exn = (false, []) ∧
    setTemperature ⟨some ""⟩ 0 "day" 21 .exn = (false, []) := by
  constructor
  · exact (write_gating_no_request ⟨Option.none⟩ rfl).1 2 .exn .exn
  · exact (write_gating_no_request ⟨some ""⟩ rfl).2 0 "day" 21 .exn

/-- C4: keys surviving the legacy parse are never case-insensitively
equal to a reserved keyword, so every key of a successful refresh's
snapshot is either status-sourced or free of an excluded-keyword match. -/
theorem snapshot_excludes_reserved_keys (st : ClientState) (inp : RefreshInput)
    (snap : PyDict Entry) (h : refresh_result st inp = .ok snap) :
    (∀ legacy, async_get_legacy_data inp.descResp inp.dataResp = .ok legacy →
      ∀ k, hasKey legacy k = true → pyLowerStr k ∉ EXCLUDE_KEYWORDS) ∧
    (∀ k, hasKey snap k = true →
      hasKey (status_snapshot inp) k = true ∨ pyLowerStr k ∉ EXCLUDE_KEYWORDS) := by
  have hconv : ∀ k, notExcluded k → pyLowerStr k ∉ EXCLUDE_KEYWORDS := by
    intro k hk
    unfold notExcluded at hk
    simp only [EXCLUDE_KEYWORDS, List.mem_cons, List.not_mem_nil, or_false]
    tauto
  constructor
  · intro legacy hleg k hk
    exact hconv k (legacy_result_keys _ _ legacy hleg k hk)
  · intro k hk
    rw [refresh_result_eq] at h
    cases hleg : async_get_legacy_data inp.descResp inp.dataResp with
    | ok l =>
      rw [hleg, finish_refresh_ok] at h
      injection h with h2
      subst h2
      rw [merge_hasKey] at hk
      rcases Bool.or_eq_true_iff.mp hk with h3 | h3
      · exact Or.inl h3
      · exact Or.inr (hconv k (legacy_result_keys _ _ l hleg k h3))
    | error e =>
      rw [hleg, finish_refresh_error] at h
      by_cases hemp : (status_snapshot inp).isEmpty
      · rw [if_pos hemp] at h
        exact absurd h (by simp)
      · rw [if_neg hemp] at h
        injection h with h2
        subst h2
        exact Or.inl hk

/-- C4 witness: a concrete refresh whose legacy payload contains a
`Reserved` line yields a snapshot in which the surviving key has no
excluded-keyword match. -/
theorem snapshot_excludes_reserved_keys_witness :
    pyLowerStr "Aussentemperatur" ∉ EXCLUDE_KEYWORDS ∧
    (hasKey
        (status_snapshot ⟨.exn, .resp 200 "Aussentemperatur;°C\nReserved; \nlast",
          .resp 200 "5.3\nfoo\nlast"⟩) "Aussentemperatur" = true ∨
      pyLowerStr "Aussentemperatur" ∉ EXCLUDE_KEYWORDS) := by
  have h := snapshot_excludes_reserved_keys biostar_init
    ⟨.exn, .resp 200 "Aussentemperatur;°C\nReserved; \nlast",
      .resp 200 "5.3\nfoo\nlast"⟩
    [("Aussentemperatur", (.float (Rat.divInt 53 10), some "°C"))] (by rfl)
  constructor
  · exact h.1 [("Aussentemperatur", (.float (Rat.divInt 53 10), some "°C"))]
      (by rfl) "Aussentemperatur" (by rfl)
  · exact h.2 "Aussentemperatur" (by rfl)

/-- C5 counterexample: with the extended endpoint answering HTTP 200 and
a JSON body containing an `err` field, `setProgram` does not return
failure: it proceeds to the legacy endpoint (both endpoints appear in
the request trace) and, the legacy endpoint answering 200, returns
success — contradicting the claim on both counts. -/
theorem setProgram_err_counterexample :
    (setProgram ⟨some "w"⟩ 2
        (.resp 200 ⟨some (.dict [("err", .str "bad")]), ""⟩)
        (.resp 200 "")).1 = true ∧
    (setProgram ⟨some "w"⟩ 2
        (.resp 200 ⟨some (.dict [("err", .str "bad")]), ""⟩)
        (.resp 200 "")).2 = ["/ext/parset.cgi", "/parset.cgi"] := by
  constructor
  · rfl
  · rfl

/-- C5 amended: when the extended endpoint returns HTTP 200 with a JSON
object containing `err` (and no `ack`), `setProgram` logs the error but
does not return; it always falls through to the legacy `/parset.cgi`
endpoint and the call's result is the legacy attempt's result (HTTP 200
means success). -/
theorem setProgram_err_falls_through (c : WriteClient)
    (hw : has_write_access c = true) (pid : Int)
    (fs : PyDict PyValue) (hack : hasKey fs "ack" = false)
    (herr : hasKey fs "err" = true) (t : String) (leg : FetchResult String) :
    setProgram c pid (.resp 200 ⟨some (.dict fs), t⟩) leg =
      (legacy_write_ok leg, ["/ext/parset.cgi", "/parset.cgi"]) := by
  have hext : setProgram_ext (.resp 200 ⟨some (.dict fs), t⟩) = Option.none := by
    show (match pyContains? "ack" (PyValue.dict fs) with
        | some true => some true
        | some false => Option.none
        | Option.none => if textAck t then some true else Option.none) = Option.none
    rw [show pyContains? "ack" (PyValue.dict fs) = some (hasKey fs "ack") from rfl,
      hack]
  unfold setProgram
  rw [hw, hext]
  rfl

/-- C5 amended witness: a concrete `err` response falls through; with
the legacy endpoint unreachable the overall call fails, with both
endpoints in the trace. -/
theorem setProgram_err_falls_through_witness :
    setProgram ⟨some "w"⟩ 3
      (.resp 200 ⟨some (.dict [("err", .str "x")]), "body"⟩) .exn =
      (false, ["/ext/parset.cgi", "/parset.cgi"]) := by
  exact setProgram_err_falls_through ⟨some "w"⟩ rfl 3 [("err", .str "x")]
    rfl rfl "body" .exn

/-- C6: legacy value coercion follows the source priority order: exact
boolean tokens first regardless of unit, then float parsing for
temperature and percentage units, integer truncation for day and hour
units, raw string otherwise; a parse failure keeps the raw string and
never aborts. -/
theorem legacy_value_coercion (raw : String) (unit : Option String) :
    ((raw = "AN" ∨ raw = "ON" ∨ raw = "MARCHE") →
      coerce_value raw unit = .bool true) ∧
    ((raw = "AUS" ∨ raw = "OFF" ∨ raw = "ARRÊT") →
      coerce_value raw unit = .bool false) ∧
    (¬(raw = "AN" ∨ raw = "ON" ∨ raw = "MARCHE") →
      ¬(raw = "AUS" ∨ raw = "OFF" ∨ raw = "ARRÊT") →
      (unit = some "°C" ∨ unit = some "%") →
      coerce_value raw unit =
        (match pyFloat? raw with
         | some q => .float q
         | Option.none => .str raw)) ∧
    (¬(raw = "AN" ∨ raw = "ON" ∨ raw = "MARCHE") →
      ¬(raw = "AUS" ∨ raw = "OFF" ∨ raw = "ARRÊT") →
      (unit = some "d" ∨ unit = some "h") →
      coerce_value raw unit =
        (match pyFloat? raw with
         | some q => .int (pyTruncInt q)
         | Option.none => .str raw)) ∧
    (¬(raw = "AN" ∨ raw = "ON" ∨ raw = "MARCHE") →
      ¬(raw = "AUS" ∨ raw = "OFF" ∨ raw = "ARRÊT") →
      ¬(unit = some "°C" ∨ unit = some "%") →
      ¬(unit = some "d" ∨ unit = some "h") →
      coerce_value raw unit = .str raw) := by
  refine ⟨?_, ?_, ?_, ?_, ?_⟩
  · intro h
    unfold coerce_value
    rw [if_pos h]
  · intro h
    have hne : ¬(raw = "AN" ∨ raw = "ON" ∨ raw = "MARCHE") := by
      rcases h with rfl | rfl | rfl <;> decide
    unfold coerce_value
    rw [if_neg hne, if_pos h]
  · intro h1 h2 hu
    unfold coerce_value
    rw [if_neg h1, if_neg h2, if_pos hu]
  · intro h1 h2 hu
    have hu2 : ¬(unit = some "°C" ∨ unit = some "%") := by
      rcases hu with rfl | rfl <;> decide
    unfold coerce_value
    rw [if_neg h1, if_neg h2, if_neg hu2, if_pos hu]
  · intro h1 h2 h3 h4
    unfold coerce_value
    rw [if_neg h1, if_neg h2, if_neg h3, if_neg h4]

/-- C6 witness: the coercion on the spec's concrete examples. -/
theorem legacy_value_coercion_witness :
    coerce_value "MARCHE" (some "h") = .bool true ∧
    coerce_value "ARRÊT" Option.none = .bool false ∧
    coerce_value "21.5" (some "°C") = .float (Rat.divInt 43 2) ∧
    coerce_value "foo" (some "°C") = .str "foo" ∧
    coerce_value "12.7" (some "d") = .int 12 ∧
    coerce_value "0" (some "kW") = .str "0" := by
  refine ⟨?_, ?_, ?_, ?_, ?_, ?_⟩
  · exact (legacy_value_coercion "MARCHE" (some "h")).1 (by decide)
  · exact (legacy_value_coercion "ARRÊT" Option.none).2.1 (by decide)
  · exact ((legacy_value_coercion "21.5" (some "°C")).2.2.1 (by decide) (by decide)
      (Or.inl rfl)).trans (by rfl)
  · exact ((legacy_value_coercion "foo" (some "°C")).2.2.1 (by decide) (by decide)
      (Or.inl rfl)).trans (by rfl)
  · exact ((legacy_value_coercion "12.7" (some "d")).2.2.2.1 (by decide) (by decide)
      (Or.inl rfl)).trans (by rfl)
  · exact (legacy_value_coercion "0" (some "kW")).2.2.2.2 (by decide) (by decide)
      (by decide) (by decide)

/-- C7: a successful legacy fetch parses exactly the newline-split
bodies with the trailing artifact line dropped; the parse reads only
index pairs below the shorter length, ignoring surplus lines on either
side; and a description line that does not split on `;` into exactly two
fields leaves the accumulated data untouched (the index is skipped,
nothing aborts). -/
theorem legacy_line_pairing :
    (∀ descBody valBody : String,
      async_get_legacy_data (.resp 200 descBody) (.resp 200 valBody) =
        .ok (legacy_parse_lines ((pySplit descBody '\n').dropLast)
          ((pySplit valBody '\n').dropLast))) ∧
    (∀ desc vals : List String, legacy_parse_lines desc vals =
      legacy_parse_lines (desc.take (min desc.length vals.length))
        (vals.take (min desc.length vals.length))) ∧
    (∀ (acc : PyDict Entry) (dl vl : String), (pySplit dl ';').length ≠ 2 →
      legacy_step acc dl vl = acc) := by
  refine ⟨?_, ?_, ?_⟩
  · intro descBody valBody
    show (if (!((pySplit descBody '\n').dropLast).isEmpty &&
          !((pySplit valBody '\n').dropLast).isEmpty) = true
        then Except.ok (legacy_parse_lines ((pySplit descBody '\n').dropLast)
          ((pySplit valBody '\n').dropLast))
        else Except.ok []) = Except.ok (legacy_parse_lines
          ((pySplit descBody '\n').dropLast) ((pySplit valBody '\n').dropLast))
    by_cases hg : (!((pySplit descBody '\n').dropLast).isEmpty &&
        !((pySplit valBody '\n').dropLast).isEmpty) = true
    · rw [if_pos hg]
    · rw [if_neg hg]
      have hgf : (!((pySplit descBody '\n').dropLast).isEmpty &&
          !((pySplit valBody '\n').dropLast).isEmpty) = false := by
        simpa using hg
      have hp : legacy_parse_lines ((pySplit descBody '\n').dropLast)
          ((pySplit valBody '\n').dropLast) = [] := by
        rcases Bool.and_eq_false_iff.mp hgf with h | h
        · have h2 : ((pySplit descBody '\n').dropLast) = [] := by
            simp only [Bool.not_eq_false'] at h
            simpa [List.isEmpty_iff] using h
          unfold legacy_parse_lines
          rw [h2]
          simp
        · have h2 : ((pySplit valBody '\n').dropLast) = [] := by
            simp only [Bool.not_eq_false'] at h
            simpa [List.isEmpty_iff] using h
          unfold legacy_parse_lines
          rw [h2]
          simp
      rw [hp]
  · exact legacy_parse_lines_take
  · intro acc dl vl h
    show legacy_step_fields acc vl (pySplit dl ';') = acc
    rcases hs : pySplit dl ';' with _ | ⟨a, _ | ⟨b, _ | ⟨e, rest⟩⟩⟩
    · rfl
    · rfl
    · rw [hs] at h
      simp at h
    · rfl

/-- C7 witness: a concrete payload with surplus description lines, and a
malformed three-field description line leaving the data untouched. -/
theorem legacy_line_pairing_witness :
    async_get_legacy_data (.resp 200 "A;°C\nB;d\nlast") (.resp 200 "1\nlast") =
      .ok (legacy_parse_lines ["A;°C", "B;d"] ["1"]) ∧
    legacy_step [] "mal;formed;line" "7" = [] := by
  constructor
  · exact (legacy_line_pairing.1 "A;°C\nB;d\nlast" "1\nlast").trans (by rfl)
  · exact legacy_line_pairing.2.2 [] "mal;formed;line" "7" (by decide)

/-- C8: the default temperature constraints are min 15.0, max 30.0,
step (stored under the source key `inc`) 0.5; each cached field is
preserved by any refresh whose status payload is unavailable, falsy, or
lacks the corresponding top-level field; and the constraints stay at the
default across any refresh sequence that never reports
`heat_constraints`. -/
theorem cached_state_preservation :
    biostar_init.heat_constraints =
      .dict [("min", .float 15), ("max", .float 30), ("inc", .float (1/2))] ∧
    (∀ st inp, reports_field inp "meta" = false →
      (async_get_data st inp).1.device_info = st.device_info) ∧
    (∀ st inp, reports_field inp "heat_circ" = false →
      (async_get_data st inp).1.heating_circuits = st.heating_circuits) ∧
    (∀ st inp, reports_field inp "heat_constraints" = false →
      (async_get_data st inp).1.heat_constraints = st.heat_constraints) ∧
    (∀ l : List RefreshInput,
      (∀ inp ∈ l, reports_field inp "heat_constraints" = false) →
      (run_refreshes biostar_init l).heat_constraints =
        biostar_init.heat_constraints) := by
  refine ⟨rfl, cache_meta_pres, cache_circ_pres, cache_constraints_pres, ?_⟩
  have hgen : ∀ (l : List RefreshInput) (st : ClientState),
      (∀ inp ∈ l, reports_field inp "heat_constraints" = false) →
      (run_refreshes st l).heat_constraints = st.heat_constraints := by
    intro l
    induction l with
    | nil => intro st _; rfl
    | cons i t ih =>
      intro st hl
      show (run_refreshes (async_get_data st i).1 t).heat_constraints = _
      rw [ih (async_get_data st i).1 (fun inp hin => hl inp (by simp [hin]))]
      exact cache_constraints_pres st i (hl i (by simp))
  intro l hl
  exact hgen l biostar_init hl

/-- C8 witness: a failed refresh preserves a non-default cached state,
and a two-refresh run without `heat_constraints` keeps the default. -/
theorem cached_state_preservation_witness :
    (async_get_data ⟨.str "info", .list [], .dict []⟩
        ⟨.exn, .exn, .exn⟩).1.device_info = .str "info" ∧
    (run_refreshes biostar_init [⟨.exn, .exn, .exn⟩,
        ⟨.resp 200 (some (.dict [("temp", .float 55)])), .exn, .exn⟩]
      ).heat_constraints = biostar_init.heat_constraints := by
  constructor
  · exact cached_state_preservation.2.1 ⟨.str "info", .list [], .dict []⟩
      ⟨.exn, .exn, .exn⟩ rfl
  · refine cached_state_preservation.2.2.2.2 [⟨.exn, .exn, .exn⟩,
      ⟨.resp 200 (some (.dict [("temp", .float 55)])), .exn, .exn⟩] ?_
    intro inp hin
    rcases List.mem_cons.mp hin with rfl | hin2
    · rfl
    rcases List.mem_cons.mp hin2 with rfl | hin3
    · rfl
    · exact absurd hin3 (List.not_mem_nil _)

/-- C9: an HTTP 200 status response whose body decodes to a falsy value
(empty object, null, 0, …) makes the refresh — cached state and outcome
alike — identical to one whose status endpoint is unavailable. -/
theorem falsy_status_like_unavailable (st : ClientState)
    (d v : FetchResult String) (body : PyValue) (hf : pyTruthy body = false) :
    async_get_data st ⟨.resp 200 (some body), d, v⟩ =
      async_get_data st ⟨.exn, d, v⟩ := by
  simp [async_get_data, cache_after, status_snapshot, async_get_status_data, hf]

/-- C9 witness: the empty JSON object and JSON null both behave exactly
like an unavailable status endpoint. -/
theorem falsy_status_like_unavailable_witness :
    async_get_data biostar_init ⟨.resp 200 (some (.dict [])), .exn, .exn⟩ =
      async_get_data biostar_init ⟨.exn, .exn, .exn⟩ ∧
    async_get_data biostar_init
        ⟨.resp 200 (some .none), .resp 200 "A;°C\nx", .resp 200 "5\nx"⟩ =
      async_get_data biostar_init ⟨.exn, .resp 200 "A;°C\nx", .resp 200 "5\nx"⟩ := by
  constructor
  · exact falsy_status_like_unavailable biostar_init .exn .exn (.dict []) rfl
  · exact falsy_status_like_unavailable biostar_init
      (.resp 200 "A;°C\nx") (.resp 200 "5\nx") .none rfl

/-- C10: every key emitted by the status parser begins with `_`, so a
legacy key not beginning with `_` can never collide with a status key:
in any refresh whose legacy fetch succeeds, such a key is merged with
exactly its legacy value. -/
theorem status_keys_underscore_no_collision :
    (∀ (d : PyValue) (k : String),
      hasKey (parse_status_data d) k = true → underscored k = true) ∧
    (∀ (st : ClientState) (inp : RefreshInput) (legacy : PyDict Entry)
      (k : String),
      async_get_legacy_data inp.descResp inp.dataResp = .ok legacy →
      underscored k = false → hasKey legacy k = true →
      refresh_result st inp = .ok (merge_legacy (status_snapshot inp) legacy) ∧
      hasKey (merge_legacy (status_snapshot inp) legacy) k = true ∧
      dictGet? (merge_legacy (status_snapshot inp) legacy) k =
        dictGet? legacy k) := by
  constructor
  · exact parse_status_underscored
  · intro st inp legacy k hleg hu hk
    have hsk : hasKey (status_snapshot inp) k = false := by
      cases hh : hasKey (status_snapshot inp) k with
      | false => rfl
      | true =>
        exfalso
        cases hsd : async_get_status_data inp.statusResp with
        | none =>
          rw [status_snapshot_of_unavailable inp hsd] at hh
          simp [hasKey] at hh
        | some sd =>
          rw [status_snapshot_of_some inp sd hsd] at hh
          by_cases htr : pyTruthy sd
          · rw [if_pos htr] at hh
            have h2 := parse_status_underscored sd k hh
            rw [hu] at h2
            simp at h2
          · rw [if_neg htr] at hh
            simp [hasKey] at hh
    refine ⟨?_, ?_, ?_⟩
    · rw [refresh_result_eq, hleg, finish_refresh_ok]
    · rw [merge_hasKey, hsk, hk]
      rfl
    · exact merge_get_of_not_base legacy (status_snapshot inp) k hsk

/-- C10 witness: `_CO2` is an underscored status key, and a concrete
non-underscored legacy key survives the merge with its legacy value. -/
theorem status_keys_underscore_no_collision_witness :
    underscored "_CO2" = true ∧
    dictGet?
      (merge_legacy
        (status_snapshot ⟨.resp 200 (some (.dict [("co2", .float 7)])),
          .resp 200 "Aussentemperatur;°C\nlast", .resp 200 "5\nlast"⟩)
        [("Aussentemperatur", (.float (Rat.divInt 5 1), some "°C"))])
      "Aussentemperatur" =
      dictGet? [("Aussentemperatur", (.float (Rat.divInt 5 1), some "°C"))]
        "Aussentemperatur" := by
  constructor
  · exact status_keys_underscore_no_collision.1 (.dict [("co2", .float 7)])
      "_CO2" (by rfl)
  · exact (status_keys_underscore_no_collision.2 biostar_init
      ⟨.resp 200 (some (.dict [("co2", .float 7)])),
        .resp 200 "Aussentemperatur;°C\nlast", .resp 200 "5\nlast"⟩
      [("Aussentemperatur", (.float (Rat.divInt 5 1), some "°C"))]
      "Aussentemperatur" (by rfl) (by rfl) (by rfl)).2.2
